import Mathlib

/-!
Verification of the jenkins-operator entry point
(prow/cmd/jenkins-operator/main.go).

The file shallowly embeds the scheduler and startup wiring of the
operator: the reconcile loop and the metrics-gather loop are modelled as
state machines driven by a schedule of channel events (tick or signal),
the Go select statement at each loop boundary is modelled with an
explicit choice bit (Go select picks uniformly at random among ready
cases), and the startup sequence of main is modelled as a sequential
function over the flag values and an environment describing the outcome
of file reads and external calls.
-/

namespace JenkinsOperator

/-- Events a timer loop can receive at a select boundary: a timer tick
from the 30-second ticker, or a value on the signal channel registered
for SIGINT and SIGTERM. -/
inductive Event where
  | tick
  | sig
deriving DecidableEq, Repr

/-- Observable side effects of the process, in order of occurrence. -/
inductive Effect where
  | logError (msg : String)
  | logInfo (msg : String)
  | logDebug (msg : String)
  | logFatal (err : Option String) (msg : String)
  | observeResync (seconds : Nat)
  | servedRequest (r : String)
  | fatalExit (code : Nat)
deriving DecidableEq, Repr

/-- Result of one invocation of the controller Sync callback: an
optional error and the wall-clock duration the call took. -/
structure SyncOutcome where
  err : Option String
  duration : Nat
deriving DecidableEq, Repr

/-- State of one timer-driven loop: whether it has returned, and how
many iterations (tick bodies) it has executed. -/
structure LoopState where
  stopped : Bool
  iterations : Nat
deriving DecidableEq, Repr

/-- Initial state of a timer loop: running, no iteration executed. -/
def initLoop : LoopState := { stopped := false, iterations := 0 }

/-- One step of the reconcile loop in main (main.go lines 149-163):
on a tick, call Sync, log the error if Sync failed, log the Synced line,
and observe the duration on the ResyncPeriod metric; on a signal, log
and return. The sync argument gives the outcome of the n-th Sync call. -/
def reconcileStep (sync : Nat → SyncOutcome) (s : LoopState) (e : Event) :
    LoopState × List Effect :=
  if s.stopped then (s, [])
  else
    match e with
    | Event.tick =>
        let o := sync s.iterations
        let errEffects : List Effect :=
          match o.err with
          | some _ => [Effect.logError "Error syncing."]
          | none => []
        ({ stopped := false, iterations := s.iterations + 1 },
          errEffects ++ [Effect.logInfo "Synced", Effect.observeResync o.duration])
    | Event.sig =>
        ({ s with stopped := true },
          [Effect.logInfo "Jenkins operator is shutting down..."])

/-- Run the reconcile loop over a schedule of delivered events. -/
def reconcileRun (sync : Nat → SyncOutcome) (s : LoopState) :
    List Event → LoopState × List Effect
  | [] => (s, [])
  | e :: es =>
      let p := reconcileStep sync s e
      let q := reconcileRun sync p.1 es
      (q.1, p.2 ++ q.2)

/-- One step of the gather loop (main.go lines 214-224): on a tick,
call SyncMetrics (which cannot fail) and log the duration at debug
level; on a signal, log at debug level and return. -/
def gatherStep (s : LoopState) (e : Event) : LoopState × List Effect :=
  if s.stopped then (s, [])
  else
    match e with
    | Event.tick =>
        ({ stopped := false, iterations := s.iterations + 1 },
          [Effect.logDebug "Metrics synced"])
    | Event.sig =>
        ({ s with stopped := true },
          [Effect.logDebug "Jenkins operator gatherer is shutting down..."])

/-- Run the gather loop over a schedule of delivered events. -/
def gatherRun (s : LoopState) : List Event → LoopState × List Effect
  | [] => (s, [])
  | e :: es =>
      let p := gatherStep s e
      let q := gatherRun p.1 es
      (q.1, p.2 ++ q.2)

/-- Number of tick events in a schedule delivered before the first
signal event. -/
def ticksBeforeSig : List Event → Nat
  | [] => 0
  | Event.tick :: es => ticksBeforeSig es + 1
  | Event.sig :: _ => 0

/-- Durations recorded on the resync-duration metric, extracted from an
effect trace in order. -/
def observes (effs : List Effect) : List Nat :=
  effs.filterMap fun e =>
    match e with
    | Effect.observeResync d => some d
    | _ => none

/-- Number of error log lines in an effect trace. -/
def errorLogCount (effs : List Effect) : Nat :=
  effs.countP fun e =>
    match e with
    | Effect.logError _ => true
    | _ => false

/-- A trace contains a process exit. -/
def hasFatalExit (effs : List Effect) : Bool :=
  effs.any fun e =>
    match e with
    | Effect.fatalExit _ => true
    | _ => false

/-! Channel-level model of one select boundary. The ticker channel and
the signal channel each either hold a pending value or not; the Go
select statement consumes a value from one ready channel, choosing
uniformly at random when several are ready. The random draw is made
explicit as a boolean choice argument. -/

/-- Pending values on the two channels a timer loop selects over. -/
structure Chans where
  tickPending : Bool
  sigPending : Bool
deriving DecidableEq, Repr

/-- The Go select over the tick and sig channels: returns the case that
fires. When both channels are ready the choice bit decides which case
is taken, modelling the uniform pseudo-random selection Go performs;
when one is ready that one is taken; when neither is ready, select
blocks (modelled as none: the boundary produces no event). -/
def goSelect (ch : Chans) (choice : Bool) : Option Event :=
  if ch.tickPending && ch.sigPending then
    some (if choice then Event.sig else Event.tick)
  else if ch.sigPending then some Event.sig
  else if ch.tickPending then some Event.tick
  else none

/-- One select boundary of the reconcile loop: resolve the select, run
the selected case to completion (the whole loop body is executed before
the next boundary), and consume the chosen channel value. A value left
unconsumed on the signal channel stays pending. -/
def mainBoundary (sync : Nat → SyncOutcome) (s : LoopState) (ch : Chans)
    (choice : Bool) : LoopState × Chans × List Effect :=
  match goSelect ch choice with
  | some Event.tick =>
      let p := reconcileStep sync s Event.tick
      (p.1, { ch with tickPending := false }, p.2)
  | some Event.sig =>
      let p := reconcileStep sync s Event.sig
      (p.1, { ch with sigPending := false }, p.2)
  | none => (s, ch, [])

/-- One select boundary of the gather loop, same shape as the reconcile
loop boundary. -/
def gatherBoundary (s : LoopState) (ch : Chans) (choice : Bool) :
    LoopState × Chans × List Effect :=
  match goSelect ch choice with
  | some Event.tick =>
      let p := gatherStep s Event.tick
      (p.1, { ch with tickPending := false }, p.2)
  | some Event.sig =>
      let p := gatherStep s Event.sig
      (p.1, { ch with sigPending := false }, p.2)
  | none => (s, ch, [])

/-! Timer cadence. Both loops are built over a ticker created by
`time.Tick(30 * time.Second)`; the interval is a literal at the
construction site and nothing can change it afterwards. -/

/-- Nanoseconds in one second (the value of `time.Second`). -/
def nanosecondsPerSecond : Nat := 1000000000

/-- Ticker interval of the reconcile loop in nanoseconds
(main.go line 145). -/
def reconcileTickInterval : Nat := 30 * nanosecondsPerSecond

/-- Ticker interval of the gather loop in nanoseconds
(main.go line 210). -/
def gatherTickInterval : Nat := 30 * nanosecondsPerSecond

/-- Instant, in nanoseconds after loop start, of the n-th firing of the
reconcile ticker (a fixed-period timer fires at multiples of its
interval). -/
def reconcileTickTime (n : Nat) : Nat := (n + 1) * reconcileTickInterval

/-- Instant of the n-th firing of the gather ticker. -/
def gatherTickTime (n : Nat) : Nat := (n + 1) * gatherTickInterval

/-! Whitespace trimming. Credential files are read and passed through
bytes.TrimSpace, which drops leading and trailing characters for which
unicode.IsSpace holds. File contents are modelled as rune lists. -/

/-- The predicate unicode.IsSpace of Go: the Unicode White_Space code
points. -/
def goIsSpace (c : Char) : Bool :=
  (0x9 ≤ c.toNat && c.toNat ≤ 0xD) || c.toNat = 0x20 || c.toNat = 0x85 ||
  c.toNat = 0xA0 || c.toNat = 0x1680 ||
  (0x2000 ≤ c.toNat && c.toNat ≤ 0x200A) || c.toNat = 0x2028 ||
  c.toNat = 0x2029 || c.toNat = 0x202F || c.toNat = 0x205F ||
  c.toNat = 0x3000

/-- The function bytes.TrimSpace: drop the longest run of whitespace
from the front and from the back of the contents. -/
def trimSpace (l : List Char) : List Char :=
  (((l.dropWhile goIsSpace).reverse.dropWhile goIsSpace)).reverse

/-- The function loadToken (main.go lines 166-172): read the file and
return its contents with surrounding whitespace trimmed; a read error
is propagated. The readFile argument models ioutil.ReadFile, giving the
contents of readable files. -/
def loadToken (readFile : String → Option (List Char)) (file : String) :
    Option (List Char) :=
  match readFile file with
  | none => none
  | some raw => some (trimSpace raw)

/-! Startup wiring. The flag values of the process and an environment
describing the outcome of external calls (file reads, selector parsing,
config agent start, kube client construction, key-pair loading, URL
parsing, the push-gateway section of the loaded config) determine
either a fatal abort at some startup stage or the set of constructed
components with which the loops are started. -/

/-- Command-line flag values (main.go lines 45-60). -/
structure Flags where
  configPath : String
  selector : String
  jenkinsURL : String
  jenkinsUser : String
  jenkinsTokenFile : String
  jenkinsBearerTokenFile : String
  certFile : String
  keyFile : String
  caCertFile : String
  githubEndpoint : String
  githubTokenFile : String
  dryRun : Bool
deriving DecidableEq, Repr

/-- Outcomes of the external calls startup makes, in the order main
makes them. readFile models ioutil.ReadFile, keyPairOk the success of
tls.LoadX509KeyPair on the given cert and key files, endpointOk the
success of url.Parse, and the pushGateway fields the PushGateway
section of the loaded configuration. -/
structure Env where
  selectorOk : Bool
  configOk : Bool
  kubeOk : Bool
  readFile : String → Option (List Char)
  keyPairOk : String → String → Bool
  endpointOk : String → Bool
  pushGatewayEndpoint : String
  pushGatewayInterval : Nat

/-- Startup stage at which a fatal log aborts the process. -/
inductive FatalStage where
  | badSelector
  | configStart
  | kubeClient
  | tokenRead
  | bearerTokenRead
  | missingAuth
  | certRead
  | oauthRead
  | badEndpoint
deriving DecidableEq, Repr

/-- Basic auth configuration for the Jenkins client. -/
structure BasicAuthConfig where
  user : String
  token : List Char
deriving DecidableEq, Repr

/-- Bearer token auth configuration for the Jenkins client. -/
structure BearerTokenAuthConfig where
  token : List Char
deriving DecidableEq, Repr

/-- The jenkins.AuthConfig value assembled at startup. -/
structure AuthConfig where
  basic : Option BasicAuthConfig
  bearerToken : Option BearerTokenAuthConfig
deriving DecidableEq, Repr

/-- The TLS configuration assembled by loadCerts: the certificate pair
that was loaded and, when a CA file was given, the CA pool contents. -/
structure TLSConfig where
  certFile : String
  keyFile : String
  rootCAs : Option (List Char)
deriving DecidableEq, Repr

/-- The auth selection of main (lines 81-101): if the basic token file
flag is non-empty, load it and configure basic auth; otherwise, if the
bearer token file flag is non-empty, load it and configure bearer token
auth; otherwise abort. The first component lists the credential files
this stage read, in order. -/
def buildAuth (fl : Flags) (readFile : String → Option (List Char)) :
    List String × Except FatalStage AuthConfig :=
  if fl.jenkinsTokenFile ≠ "" then
    match loadToken readFile fl.jenkinsTokenFile with
    | none => ([fl.jenkinsTokenFile], Except.error FatalStage.tokenRead)
    | some tok =>
        ([fl.jenkinsTokenFile],
          Except.ok { basic := some { user := fl.jenkinsUser, token := tok },
                      bearerToken := none })
  else if fl.jenkinsBearerTokenFile ≠ "" then
    match loadToken readFile fl.jenkinsBearerTokenFile with
    | none => ([fl.jenkinsBearerTokenFile], Except.error FatalStage.bearerTokenRead)
    | some tok =>
        ([fl.jenkinsBearerTokenFile],
          Except.ok { basic := none, bearerToken := some { token := tok } })
  else ([], Except.error FatalStage.missingAuth)

/-- The function loadCerts (main.go lines 174-196): load the key pair,
then, only when a CA file is configured, read it and install it as the
root CA pool; any failure is returned as an error. -/
def loadCerts (env : Env) (certFile keyFile caCertFile : String) :
    Except Unit TLSConfig :=
  if env.keyPairOk certFile keyFile then
    if caCertFile ≠ "" then
      match env.readFile caCertFile with
      | none => Except.error ()
      | some ca =>
          Except.ok { certFile := certFile, keyFile := keyFile, rootCAs := some ca }
    else Except.ok { certFile := certFile, keyFile := keyFile, rootCAs := none }
  else Except.error ()

/-- The TLS selection of main (lines 102-109): loadCerts is called only
when both the cert file flag and the key file flag are non-empty; its
failure is fatal; otherwise the client is built with no TLS config. -/
def buildTLS (fl : Flags) (env : Env) : Except FatalStage (Option TLSConfig) :=
  if fl.certFile ≠ "" && fl.keyFile ≠ "" then
    match loadCerts env fl.certFile fl.keyFile fl.caCertFile with
    | Except.error _ => Except.error FatalStage.certRead
    | Except.ok cfg => Except.ok (some cfg)
  else Except.ok none

/-- Components constructed by a successful startup, with which the
three loops are started. -/
structure Started where
  ac : AuthConfig
  tlsConfig : Option TLSConfig
  oauthSecret : List Char
  dryRun : Bool
  pushTask : Option (String × Nat)
deriving DecidableEq, Repr

/-- The startup sequence of main (lines 62-143), up to the point where
the goroutines and the reconcile loop start: parse the selector, start
the config agent, build the kube client, select the auth scheme, build
the optional TLS config, read and trim the GitHub OAuth secret, parse
the GitHub endpoint, and decide whether a push-gateway push task is
started. Every failure is a fatal abort carrying its stage. -/
def startup (fl : Flags) (env : Env) : Except FatalStage Started :=
  if ¬ env.selectorOk then Except.error FatalStage.badSelector
  else if ¬ env.configOk then Except.error FatalStage.configStart
  else if ¬ env.kubeOk then Except.error FatalStage.kubeClient
  else
    match (buildAuth fl env.readFile).2 with
    | Except.error e => Except.error e
    | Except.ok ac =>
        match buildTLS fl env with
        | Except.error e => Except.error e
        | Except.ok tlsCfg =>
            match env.readFile fl.githubTokenFile with
            | none => Except.error FatalStage.oauthRead
            | some raw =>
                if ¬ env.endpointOk fl.githubEndpoint then
                  Except.error FatalStage.badEndpoint
                else
                  Except.ok
                    { ac := ac
                      tlsConfig := tlsCfg
                      oauthSecret := trimSpace raw
                      dryRun := fl.dryRun
                      pushTask :=
                        if env.pushGatewayEndpoint ≠ "" then
                          some (env.pushGatewayEndpoint, env.pushGatewayInterval)
                        else none }

/-- The serve function (main.go lines 201-205): ListenAndServe blocks
while serving; it returns only with a non-nil error (a bind failure or
a terminated listener), and serve then logs that error at fatal level,
which exits the process with status 1. The argument is the error with
which ListenAndServe returned. -/
def serveRun (listenErr : String) : List Effect :=
  [Effect.logFatal (some listenErr) "ListenAndServe returned.", Effect.fatalExit 1]

/-- The whole process: if startup fails, the process exits fatally with
status 1 before any goroutine or loop is started; otherwise the serving
loop handles the given requests while the gather and reconcile loops
run over their schedules. -/
def programRun (fl : Flags) (env : Env) (sync : Nat → SyncOutcome)
    (schedMain schedGather : List Event) (requests : List String) :
    List Effect :=
  match startup fl env with
  | Except.error _ => [Effect.fatalExit 1]
  | Except.ok _ =>
      requests.map Effect.servedRequest
        ++ (gatherRun initLoop schedGather).2
        ++ (reconcileRun sync initLoop schedMain).2

/-- Concrete flag values used as inputs of closed instances: the flag
defaults of the source with a basic token file configured. -/
def sampleFlags : Flags where
  configPath := "/etc/config/config"
  selector := ""
  jenkinsURL := "http://jenkins-proxy"
  jenkinsUser := "jenkins-trigger"
  jenkinsTokenFile := "tf"
  jenkinsBearerTokenFile := ""
  certFile := ""
  keyFile := ""
  caCertFile := ""
  githubEndpoint := "https://api.github.com"
  githubTokenFile := "/etc/github/oauth"
  dryRun := true

/-- Concrete healthy environment used as input of closed instances:
every external call succeeds, every file reads as empty, and the
loaded configuration carries the push-gateway endpoint pg with
interval 7. -/
def sampleEnv : Env where
  selectorOk := true
  configOk := true
  kubeOk := true
  readFile := fun _ => some []
  keyPairOk := fun _ _ => true
  endpointOk := fun _ => true
  pushGatewayEndpoint := "pg"
  pushGatewayInterval := 7

/-- The components a startup over sampleFlags and sampleEnv builds. -/
def sampleStarted : Started where
  ac := { basic := some { user := "jenkins-trigger", token := [] }
          bearerToken := none }
  tlsConfig := none
  oauthSecret := []
  dryRun := true
  pushTask := some ("pg", 7)

/-! Helper lemmas about the loop state machines. -/

theorem observes_append (a b : List Effect) :
    observes (a ++ b) = observes a ++ observes b := by
  simp [observes, List.filterMap_append]

theorem errorLogCount_append (a b : List Effect) :
    errorLogCount (a ++ b) = errorLogCount a + errorLogCount b := by
  simp [errorLogCount, List.countP_append]

theorem hasFatalExit_append (a b : List Effect) :
    hasFatalExit (a ++ b) = (hasFatalExit a || hasFatalExit b) := by
  simp [hasFatalExit, List.any_append]

theorem reconcileStep_stopped (sync : Nat → SyncOutcome) (s : LoopState)
    (e : Event) (h : s.stopped = true) :
    reconcileStep sync s e = (s, []) := by
  simp [reconcileStep, h]

theorem reconcileRun_stopped (sync : Nat → SyncOutcome) (s : LoopState)
    (evs : List Event) (h : s.stopped = true) :
    reconcileRun sync s evs = (s, []) := by
  induction evs with
  | nil => rfl
  | cons e es ih =>
      simp [reconcileRun, reconcileStep_stopped sync s e h, ih]

theorem gatherStep_stopped (s : LoopState) (e : Event) (h : s.stopped = true) :
    gatherStep s e = (s, []) := by
  simp [gatherStep, h]

theorem gatherRun_stopped (s : LoopState) (evs : List Event)
    (h : s.stopped = true) :
    gatherRun s evs = (s, []) := by
  induction evs with
  | nil => rfl
  | cons e es ih =>
      simp [gatherRun, gatherStep_stopped s e h, ih]

theorem reconcileRun_append (sync : Nat → SyncOutcome) (s : LoopState)
    (l1 l2 : List Event) :
    reconcileRun sync s (l1 ++ l2) =
      ((reconcileRun sync (reconcileRun sync s l1).1 l2).1,
        (reconcileRun sync s l1).2 ++
          (reconcileRun sync (reconcileRun sync s l1).1 l2).2) := by
  induction l1 generalizing s with
  | nil => simp [reconcileRun]
  | cons e es ih =>
      simp [reconcileRun, ih (reconcileStep sync s e).1]

theorem gatherRun_append (s : LoopState) (l1 l2 : List Event) :
    gatherRun s (l1 ++ l2) =
      ((gatherRun (gatherRun s l1).1 l2).1,
        (gatherRun s l1).2 ++ (gatherRun (gatherRun s l1).1 l2).2) := by
  induction l1 generalizing s with
  | nil => simp [gatherRun]
  | cons e es ih =>
      simp [gatherRun, ih (gatherStep s e).1]

/-- Full characterisation of a reconcile-loop run from a running state:
the iteration count advances by exactly the number of ticks delivered
before the first signal, the loop stops exactly when a signal is in the
schedule, the observed durations are exactly the durations of the
executed Sync invocations (failed or not), every failed invocation
produces exactly one error log line, and the loop itself never exits
the process. -/
theorem reconcileRun_spec (sync : Nat → SyncOutcome) (n : Nat)
    (evs : List Event) :
    (reconcileRun sync { stopped := false, iterations := n } evs).1.iterations
        = n + ticksBeforeSig evs ∧
    (reconcileRun sync { stopped := false, iterations := n } evs).1.stopped
        = evs.contains Event.sig ∧
    observes (reconcileRun sync { stopped := false, iterations := n } evs).2
        = (List.range' n (ticksBeforeSig evs)).map (fun i => (sync i).duration) ∧
    errorLogCount (reconcileRun sync { stopped := false, iterations := n } evs).2
        = (List.range' n (ticksBeforeSig evs)).countP (fun i => (sync i).err.isSome) ∧
    hasFatalExit (reconcileRun sync { stopped := false, iterations := n } evs).2
        = false := by
  induction evs generalizing n with
  | nil =>
      simp [reconcileRun, ticksBeforeSig, observes, errorLogCount, hasFatalExit]
  | cons e es ih =>
      cases e with
      | tick =>
          have h := ih (n + 1)
          cases herr : (sync n).err with
          | none =>
              have hrun : reconcileRun sync { stopped := false, iterations := n }
                  (Event.tick :: es) =
                  ((reconcileRun sync { stopped := false, iterations := n + 1 } es).1,
                    [Effect.logInfo "Synced",
                      Effect.observeResync (sync n).duration] ++
                      (reconcileRun sync
                        { stopped := false, iterations := n + 1 } es).2) := by
                simp [reconcileRun, reconcileStep, herr]
              rw [hrun]
              refine ⟨?_, ?_, ?_, ?_, ?_⟩
              · simp only [ticksBeforeSig, h.1]; omega
              · simpa using h.2.1
              · rw [observes_append, h.2.2.1]
                simp [observes, ticksBeforeSig, List.range'_succ]
              · rw [errorLogCount_append, h.2.2.2.1]
                simp [errorLogCount, ticksBeforeSig, List.range'_succ, herr]
              · rw [hasFatalExit_append, h.2.2.2.2]
                simp [hasFatalExit]
          | some m =>
              have hrun : reconcileRun sync { stopped := false, iterations := n }
                  (Event.tick :: es) =
                  ((reconcileRun sync { stopped := false, iterations := n + 1 } es).1,
                    [Effect.logError "Error syncing.", Effect.logInfo "Synced",
                      Effect.observeResync (sync n).duration] ++
                      (reconcileRun sync
                        { stopped := false, iterations := n + 1 } es).2) := by
                simp [reconcileRun, reconcileStep, herr]
              rw [hrun]
              refine ⟨?_, ?_, ?_, ?_, ?_⟩
              · simp only [ticksBeforeSig, h.1]; omega
              · simpa using h.2.1
              · rw [observes_append, h.2.2.1]
                simp [observes, ticksBeforeSig, List.range'_succ]
              · rw [errorLogCount_append, h.2.2.2.1]
                simp [errorLogCount, ticksBeforeSig, List.range'_succ, herr]
                omega
              · rw [hasFatalExit_append, h.2.2.2.2]
                simp [hasFatalExit]
      | sig =>
          have hrun := reconcileRun_stopped sync
            { stopped := true, iterations := n } es rfl
          simp [reconcileRun, reconcileStep, hrun, ticksBeforeSig, observes,
            errorLogCount, hasFatalExit]

/-! Helper lemmas about whitespace trimming. -/

theorem dropWhile_eq_trimSpace_append (raw : List Char) :
    raw.dropWhile goIsSpace =
      trimSpace raw ++
        ((raw.dropWhile goIsSpace).reverse.takeWhile goIsSpace).reverse := by
  conv_lhs =>
    rw [← List.reverse_reverse (raw.dropWhile goIsSpace),
      ← List.takeWhile_append_dropWhile goIsSpace
        (raw.dropWhile goIsSpace).reverse]
  rw [List.reverse_append]
  rfl

theorem trimSpace_decomposition (raw : List Char) :
    ∃ pre suf, raw = pre ++ trimSpace raw ++ suf ∧
      pre.all goIsSpace = true ∧ suf.all goIsSpace = true := by
  refine ⟨raw.takeWhile goIsSpace,
    ((raw.dropWhile goIsSpace).reverse.takeWhile goIsSpace).reverse, ?_, ?_, ?_⟩
  · conv_lhs => rw [← List.takeWhile_append_dropWhile goIsSpace raw,
      dropWhile_eq_trimSpace_append raw]
    rw [List.append_assoc]
  · exact List.all_takeWhile
  · rw [List.all_reverse]
    exact List.all_takeWhile

theorem trimSpace_head_not_space (raw : List Char) (c : Char)
    (h : (trimSpace raw).head? = some c) : goIsSpace c = false := by
  cases htrim : trimSpace raw with
  | nil => rw [htrim] at h; simp at h
  | cons a t =>
      rw [htrim] at h
      simp only [List.head?_cons, Option.some.injEq] at h
      have hd1 := dropWhile_eq_trimSpace_append raw
      rw [htrim] at hd1
      have hh : (raw.dropWhile goIsSpace).head? = some c := by
        rw [hd1, List.cons_append, List.head?_cons, h]
      have hnot := List.head?_dropWhile_not goIsSpace raw
      rw [hh] at hnot
      exact hnot

theorem trimSpace_getLast_not_space (raw : List Char) (c : Char)
    (h : (trimSpace raw).getLast? = some c) : goIsSpace c = false := by
  unfold trimSpace at h
  rw [List.getLast?_reverse] at h
  have hnot := List.head?_dropWhile_not goIsSpace
    (raw.dropWhile goIsSpace).reverse
  rw [h] at hnot
  exact hnot

/-- Full characterisation of a gather-loop run from a running state. -/
theorem gatherRun_spec (n : Nat) (evs : List Event) :
    (gatherRun { stopped := false, iterations := n } evs).1.iterations
        = n + ticksBeforeSig evs ∧
    (gatherRun { stopped := false, iterations := n } evs).1.stopped
        = evs.contains Event.sig ∧
    hasFatalExit (gatherRun { stopped := false, iterations := n } evs).2
        = false := by
  induction evs generalizing n with
  | nil => simp [gatherRun, ticksBeforeSig, hasFatalExit]
  | cons e es ih =>
      cases e with
      | tick =>
          have h := ih (n + 1)
          have hrun : gatherRun { stopped := false, iterations := n }
              (Event.tick :: es) =
              ((gatherRun { stopped := false, iterations := n + 1 } es).1,
                [Effect.logDebug "Metrics synced"] ++
                  (gatherRun { stopped := false, iterations := n + 1 } es).2) := by
            simp [gatherRun, gatherStep]
          rw [hrun]
          refine ⟨by simp only [ticksBeforeSig, h.1]; omega,
            by simpa using h.2.1, ?_⟩
          rw [hasFatalExit_append, h.2.2]
          simp [hasFatalExit]
      | sig =>
          have hrun := gatherRun_stopped { stopped := true, iterations := n } es rfl
          simp [gatherRun, gatherStep, hrun, ticksBeforeSig, hasFatalExit,
            List.contains_cons]

theorem ticksBeforeSig_append_sig (l : List Event) :
    ticksBeforeSig (l ++ [Event.sig]) = ticksBeforeSig l := by
  induction l with
  | nil => rfl
  | cons e t ih => cases e <;> simp [ticksBeforeSig, ih]

/-- C1: In the reconcile loop, a failing Sync callback is only logged and
never terminates the loop or skips a tick: over any schedule of delivered
events and any outcomes of the Sync calls, the loop executes one
iteration for every tick delivered before the first shutdown signal,
independently of which Sync calls fail; it records the wall-clock
duration of every executed Sync invocation on the resync-duration
metric, success and failure alike; it logs exactly one error line per
failing invocation; and it never exits the process. -/
theorem c1_sync_error_logged_loop_continues (sync : Nat → SyncOutcome)
    (evs : List Event) :
    (reconcileRun sync initLoop evs).1.iterations = ticksBeforeSig evs ∧
    (reconcileRun sync initLoop evs).1.stopped = evs.contains Event.sig ∧
    observes (reconcileRun sync initLoop evs).2 =
      (List.range (ticksBeforeSig evs)).map (fun i => (sync i).duration) ∧
    errorLogCount (reconcileRun sync initLoop evs).2 =
      (List.range (ticksBeforeSig evs)).countP (fun i => (sync i).err.isSome) ∧
    hasFatalExit (reconcileRun sync initLoop evs).2 = false := by
  have h := reconcileRun_spec sync 0 evs
  rw [List.range_eq_range']
  exact ⟨by simpa [initLoop] using h.1, by simpa [initLoop] using h.2.1,
    by simpa [initLoop] using h.2.2.1, by simpa [initLoop] using h.2.2.2.1,
    by simpa [initLoop] using h.2.2.2.2⟩

/-- C2: Receipt of the shutdown signal terminates both timer loops:
over any schedule in which a signal is delivered, each loop ends
stopped and stays stopped however many further events the schedule
contains, executes no iteration after the signal, and produces no
effect after the shutdown log of the signal step (an iteration already
started is atomic in this model: its full effect list is emitted before
the next boundary). -/
theorem c2_signal_stops_both_loops (sync : Nat → SyncOutcome)
    (pre post : List Event) :
    (reconcileRun sync initLoop (pre ++ Event.sig :: post)).1.stopped = true ∧
    (reconcileRun sync initLoop (pre ++ Event.sig :: post)).1.iterations =
      (reconcileRun sync initLoop pre).1.iterations ∧
    (reconcileRun sync initLoop (pre ++ Event.sig :: post)).2 =
      (reconcileRun sync initLoop (pre ++ [Event.sig])).2 ∧
    (gatherRun initLoop (pre ++ Event.sig :: post)).1.stopped = true ∧
    (gatherRun initLoop (pre ++ Event.sig :: post)).1.iterations =
      (gatherRun initLoop pre).1.iterations ∧
    (gatherRun initLoop (pre ++ Event.sig :: post)).2 =
      (gatherRun initLoop (pre ++ [Event.sig])).2 := by
  have hstopR : (reconcileRun sync initLoop (pre ++ [Event.sig])).1.stopped = true := by
    have h := (reconcileRun_spec sync 0 (pre ++ [Event.sig])).2.1
    simp only [initLoop] at *
    rw [h]
    simp
  have hstopG : (gatherRun initLoop (pre ++ [Event.sig])).1.stopped = true := by
    have h := (gatherRun_spec 0 (pre ++ [Event.sig])).2.1
    simp only [initLoop] at *
    rw [h]
    simp
  have hsplit : pre ++ Event.sig :: post = (pre ++ [Event.sig]) ++ post := by simp
  have hiterR : (reconcileRun sync initLoop (pre ++ [Event.sig])).1.iterations =
      (reconcileRun sync initLoop pre).1.iterations := by
    have h1 := (reconcileRun_spec sync 0 (pre ++ [Event.sig])).1
    have h2 := (reconcileRun_spec sync 0 pre).1
    simp only [initLoop] at *
    rw [h1, h2, ticksBeforeSig_append_sig]
  have hiterG : (gatherRun initLoop (pre ++ [Event.sig])).1.iterations =
      (gatherRun initLoop pre).1.iterations := by
    have h1 := (gatherRun_spec 0 (pre ++ [Event.sig])).1
    have h2 := (gatherRun_spec 0 pre).1
    simp only [initLoop] at *
    rw [h1, h2, ticksBeforeSig_append_sig]
  rw [hsplit, reconcileRun_append, gatherRun_append,
    reconcileRun_stopped sync _ post hstopR, gatherRun_stopped _ post hstopG]
  exact ⟨hstopR, hiterR, by simp, hstopG, hiterG, by simp⟩

/-- C4: The serving loop is the one loop whose failure kills the
process: whatever error ListenAndServe returns (a bind failure or a
terminated listener), serve logs it at fatal level and exits the
process with status 1, while no run of the reconcile loop or of the
gather loop ever produces a process exit. -/
theorem c4_serve_failure_kills_process (listenErr : String)
    (sync : Nat → SyncOutcome) (evsMain evsGather : List Event) :
    serveRun listenErr =
      [Effect.logFatal (some listenErr) "ListenAndServe returned.",
        Effect.fatalExit 1] ∧
    hasFatalExit (serveRun listenErr) = true ∧
    hasFatalExit (reconcileRun sync initLoop evsMain).2 = false ∧
    hasFatalExit (gatherRun initLoop evsGather).2 = false := by
  refine ⟨rfl, rfl, ?_, ?_⟩
  · simpa [initLoop] using (reconcileRun_spec sync 0 evsMain).2.2.2.2
  · simpa [initLoop] using (gatherRun_spec 0 evsGather).2.2

/-- C6: Both timer loops are built over a ticker whose interval is the
literal 30 seconds fixed at the construction site: the reconcile and
gather tick intervals both equal 30 seconds, tick instants are exact
multiples of that interval, and consecutive ticks of each loop are
always exactly one interval apart, for every tick index. -/
theorem c6_fixed_thirty_second_cadence (n : Nat) :
    reconcileTickInterval = 30 * nanosecondsPerSecond ∧
    gatherTickInterval = 30 * nanosecondsPerSecond ∧
    reconcileTickTime n = (n + 1) * (30 * nanosecondsPerSecond) ∧
    gatherTickTime n = (n + 1) * (30 * nanosecondsPerSecond) ∧
    reconcileTickTime (n + 1) - reconcileTickTime n = reconcileTickInterval ∧
    gatherTickTime (n + 1) - gatherTickTime n = gatherTickInterval := by
  refine ⟨rfl, rfl, rfl, rfl, ?_, ?_⟩ <;>
    · simp only [reconcileTickTime, gatherTickTime, reconcileTickInterval,
        gatherTickInterval, nanosecondsPerSecond]
      omega

/-- C3 counterexample: at a boundary of the reconcile loop where a tick
and the shutdown signal are simultaneously pending, the select may
resolve to the tick case (Go select draws uniformly at random among
ready cases), and the loop then starts a new iteration instead of
terminating: with the choice bit false the loop stays running and its
iteration count rises to 1. -/
theorem c3_counterexample_select_picks_tick :
    (mainBoundary (fun _ => { err := none, duration := 5 }) initLoop
        { tickPending := true, sigPending := true } false).1.stopped = false ∧
    (mainBoundary (fun _ => { err := none, duration := 5 }) initLoop
        { tickPending := true, sigPending := true } false).1.iterations = 1 :=
  ⟨rfl, rfl⟩

/-- C3 (amended): when the shutdown signal and a tick are both pending
at a tick boundary, the loop terminates exactly when the random select
draw picks the signal case; otherwise it runs exactly one complete
further iteration (in the reconcile loop the full iteration effect
list, including the duration observation, is emitted), after which the
signal is still pending for the next boundary; an iteration that runs
is never cut short. Both timer loops behave this way. -/
theorem c3_amended_both_pending (sync : Nat → SyncOutcome) (s : LoopState)
    (choice : Bool) (h : s.stopped = false) :
    ((mainBoundary sync s { tickPending := true, sigPending := true }
        choice).1.stopped = choice) ∧
    (choice = true →
      (mainBoundary sync s { tickPending := true, sigPending := true }
          choice).1.iterations = s.iterations) ∧
    (choice = false →
      (mainBoundary sync s { tickPending := true, sigPending := true }
          choice).1.iterations = s.iterations + 1 ∧
      (mainBoundary sync s { tickPending := true, sigPending := true }
          choice).2.1.sigPending = true ∧
      observes (mainBoundary sync s { tickPending := true, sigPending := true }
          choice).2.2 = [(sync s.iterations).duration]) ∧
    ((gatherBoundary s { tickPending := true, sigPending := true }
        choice).1.stopped = choice) ∧
    (choice = true →
      (gatherBoundary s { tickPending := true, sigPending := true }
          choice).1.iterations = s.iterations) ∧
    (choice = false →
      (gatherBoundary s { tickPending := true, sigPending := true }
          choice).1.iterations = s.iterations + 1 ∧
      (gatherBoundary s { tickPending := true, sigPending := true }
          choice).2.1.sigPending = true) := by
  cases choice with
  | true =>
      cases hs : (sync s.iterations).err <;>
        simp [mainBoundary, gatherBoundary, goSelect, reconcileStep,
          gatherStep, h, observes]
  | false =>
      cases hs : (sync s.iterations).err <;>
        simp [mainBoundary, gatherBoundary, goSelect, reconcileStep,
          gatherStep, h, observes, hs]

/-- Witness for the amended C3 statement at concrete inputs: with the
draw picking the signal the loop stops, with the draw picking the tick
the loop has run one iteration. -/
theorem c3_amended_both_pending_witness :
    ((mainBoundary (fun _ => { err := none, duration := 5 }) initLoop
        { tickPending := true, sigPending := true } true).1.stopped = true) ∧
    ((mainBoundary (fun _ => { err := none, duration := 5 }) initLoop
        { tickPending := true, sigPending := true } false).1.iterations = 1) := by
  constructor
  · exact (c3_amended_both_pending (fun _ => { err := none, duration := 5 })
      initLoop true rfl).1
  · exact ((c3_amended_both_pending (fun _ => { err := none, duration := 5 })
      initLoop false rfl).2.2.1 rfl).1

/-- Inversion of a successful startup: every stage succeeded and the
started components are determined by the stage results. -/
theorem startup_ok_inv (fl : Flags) (env : Env) (st : Started)
    (h : startup fl env = Except.ok st) :
    env.selectorOk = true ∧ env.configOk = true ∧ env.kubeOk = true ∧
    (buildAuth fl env.readFile).2 = Except.ok st.ac ∧
    buildTLS fl env = Except.ok st.tlsConfig ∧
    (∃ raw, env.readFile fl.githubTokenFile = some raw ∧
      st.oauthSecret = trimSpace raw) ∧
    env.endpointOk fl.githubEndpoint = true ∧
    st.dryRun = fl.dryRun ∧
    st.pushTask = (if env.pushGatewayEndpoint ≠ "" then
      some (env.pushGatewayEndpoint, env.pushGatewayInterval) else none) := by
  unfold startup at h
  split at h
  · exact absurd h (by simp)
  split at h
  · exact absurd h (by simp)
  split at h
  · exact absurd h (by simp)
  rename_i hsel hcfg hkube
  split at h
  · exact absurd h (by simp)
  rename_i ac hac
  split at h
  · exact absurd h (by simp)
  rename_i tlsCfg htls
  split at h
  · exact absurd h (by simp)
  rename_i raw hraw
  split at h
  · exact absurd h (by simp)
  rename_i hend
  injection h with h
  subst h
  refine ⟨by simpa using hsel, by simpa using hcfg, by simpa using hkube,
    by rw [hac], by rw [htls], ⟨raw, hraw, rfl⟩, by simpa using hend, rfl, rfl⟩

/-- C5: with neither the basic-token file flag nor the bearer-token
file flag set, startup always aborts fatally at some stage, and the
whole process run is exactly one fatal exit: no HTTP request is served
and no reconcile or gather iteration produces any effect. -/
theorem c5_missing_auth_aborts (fl : Flags) (env : Env)
    (sync : Nat → SyncOutcome) (schedMain schedGather : List Event)
    (requests : List String) (h1 : fl.jenkinsTokenFile = "")
    (h2 : fl.jenkinsBearerTokenFile = "") :
    (∃ st, startup fl env = Except.error st) ∧
    programRun fl env sync schedMain schedGather requests =
      [Effect.fatalExit 1] := by
  have hauth : (buildAuth fl env.readFile).2 =
      Except.error FatalStage.missingAuth := by
    simp [buildAuth, h1, h2]
  have hkey : ∃ st, startup fl env = Except.error st := by
    unfold startup
    split
    · exact ⟨_, rfl⟩
    split
    · exact ⟨_, rfl⟩
    split
    · exact ⟨_, rfl⟩
    rw [hauth]
    exact ⟨_, rfl⟩
  refine ⟨hkey, ?_⟩
  obtain ⟨st, hst⟩ := hkey
  unfold programRun
  rw [hst]

/-- Witness for C5 at a concrete flag set with empty credential file
flags and an otherwise healthy environment. -/
theorem c5_missing_auth_aborts_witness :
    (∃ st, startup { sampleFlags with jenkinsTokenFile := "" } sampleEnv =
      Except.error st) ∧
    programRun { sampleFlags with jenkinsTokenFile := "" } sampleEnv
      (fun _ => { err := none, duration := 0 }) [Event.tick] [Event.tick]
      ["/job/log"] = [Effect.fatalExit 1] :=
  c5_missing_auth_aborts _ _ _ _ _ _ rfl rfl

/-- C7: a process that starts its loops has a push-gateway push task
exactly when the loaded configuration carries a non-empty push-gateway
endpoint, and the task pushes to that endpoint on the configured
interval; with an empty endpoint no push task exists. -/
theorem c7_push_task_iff_endpoint (fl : Flags) (env : Env) (st : Started)
    (h : startup fl env = Except.ok st) :
    st.pushTask = (if env.pushGatewayEndpoint ≠ "" then
        some (env.pushGatewayEndpoint, env.pushGatewayInterval) else none) ∧
    (st.pushTask.isSome = true ↔ env.pushGatewayEndpoint ≠ "") := by
  have hp := (startup_ok_inv fl env st h).2.2.2.2.2.2.2.2
  refine ⟨hp, ?_⟩
  rw [hp]
  by_cases he : env.pushGatewayEndpoint = "" <;> simp [he]

/-- Witness for C7 at a concrete successful startup whose configuration
carries the push-gateway endpoint pg with interval 7. -/
theorem c7_push_task_iff_endpoint_witness :
    sampleStarted.pushTask =
      (if sampleEnv.pushGatewayEndpoint ≠ "" then
        some (sampleEnv.pushGatewayEndpoint, sampleEnv.pushGatewayInterval)
      else none) ∧
    (sampleStarted.pushTask.isSome = true ↔
      sampleEnv.pushGatewayEndpoint ≠ "") :=
  c7_push_task_iff_endpoint sampleFlags sampleEnv sampleStarted rfl

/-- C8: every credential read from a file is used in trimmed form: the
basic Jenkins token, the bearer Jenkins token and the GitHub OAuth
secret each equal the file contents passed through TrimSpace, and
TrimSpace strips exactly the leading and trailing whitespace: the raw
contents decompose as whitespace, the trimmed value, whitespace, and
the trimmed value neither starts nor ends with a whitespace rune. -/
theorem c8_credentials_trimmed (rf : String → Option (List Char))
    (fl : Flags) (raw : List Char) :
    (fl.jenkinsTokenFile ≠ "" → rf fl.jenkinsTokenFile = some raw →
      (buildAuth fl rf).2 = Except.ok
        { basic := some { user := fl.jenkinsUser, token := trimSpace raw },
          bearerToken := none }) ∧
    (fl.jenkinsTokenFile = "" → fl.jenkinsBearerTokenFile ≠ "" →
      rf fl.jenkinsBearerTokenFile = some raw →
      (buildAuth fl rf).2 = Except.ok
        { basic := none, bearerToken := some { token := trimSpace raw } }) ∧
    (∀ env st, env.readFile fl.githubTokenFile = some raw →
      startup fl env = Except.ok st → st.oauthSecret = trimSpace raw) ∧
    (∃ pre suf, raw = pre ++ trimSpace raw ++ suf ∧
      pre.all goIsSpace = true ∧ suf.all goIsSpace = true) ∧
    (∀ c, (trimSpace raw).head? = some c → goIsSpace c = false) ∧
    (∀ c, (trimSpace raw).getLast? = some c → goIsSpace c = false) := by
  refine ⟨?_, ?_, ?_, trimSpace_decomposition raw,
    trimSpace_head_not_space raw, trimSpace_getLast_not_space raw⟩
  · intro h1 hread
    simp [buildAuth, loadToken, h1, hread]
  · intro h1 h2 hread
    simp [buildAuth, loadToken, h1, h2, hread]
  · intro env st hread hok
    obtain ⟨raw2, hr2, hsec⟩ := (startup_ok_inv fl env st hok).2.2.2.2.2.1
    rw [hread] at hr2
    injection hr2 with hr2
    rw [hsec, hr2]

/-- Witness for C8: a basic token file containing a space, the letter a
and a newline yields the one-letter token a. -/
theorem c8_credentials_trimmed_witness :
    (buildAuth sampleFlags (fun _ => some [' ', 'a', '\n'])).2 = Except.ok
      { basic := some { user := "jenkins-trigger"
                        token := trimSpace [' ', 'a', '\n'] }
        bearerToken := none } ∧
    trimSpace [' ', 'a', '\n'] = ['a'] :=
  ⟨(c8_credentials_trimmed (fun _ => some [' ', 'a', '\n']) sampleFlags
      [' ', 'a', '\n']).1 (by decide) rfl, by decide⟩

/-- C9: with both credential file flags non-empty, the auth stage reads
only the basic token file, configures basic auth from its trimmed
contents when the read succeeds, and fails only on a read error of the
basic file, never because the two flags are both set; the bearer token
file is not among the files the stage reads. -/
theorem c9_basic_auth_precedence (fl : Flags)
    (rf : String → Option (List Char)) (raw : List Char)
    (h1 : fl.jenkinsTokenFile ≠ "") (_h2 : fl.jenkinsBearerTokenFile ≠ "") :
    (buildAuth fl rf).1 = [fl.jenkinsTokenFile] ∧
    (rf fl.jenkinsTokenFile = some raw →
      (buildAuth fl rf).2 = Except.ok
        { basic := some { user := fl.jenkinsUser, token := trimSpace raw },
          bearerToken := none }) ∧
    (rf fl.jenkinsTokenFile = none →
      (buildAuth fl rf).2 = Except.error FatalStage.tokenRead) := by
  refine ⟨?_, ?_, ?_⟩
  · cases hload : rf fl.jenkinsTokenFile <;>
      simp [buildAuth, loadToken, h1, hload]
  · intro hread
    simp [buildAuth, loadToken, h1, hread]
  · intro hread
    simp [buildAuth, loadToken, h1, hread]

/-- Witness for C9: with basic file basicf and bearer file bearerf both
set and basicf readable, only basicf is read and basic auth results. -/
theorem c9_basic_auth_precedence_witness :
    (buildAuth { sampleFlags with jenkinsTokenFile := "basicf", jenkinsBearerTokenFile := "bearerf" }
        (fun _ => some ['x'])).1 = ["basicf"] ∧
    (buildAuth { sampleFlags with jenkinsTokenFile := "basicf", jenkinsBearerTokenFile := "bearerf" }
        (fun _ => some ['x'])).2 = Except.ok
      { basic := some { user := "jenkins-trigger"
                        token := trimSpace ['x'] }
        bearerToken := none } := by
  have h := c9_basic_auth_precedence
    { sampleFlags with jenkinsTokenFile := "basicf", jenkinsBearerTokenFile := "bearerf" }
    (fun _ => some ['x']) ['x'] (by decide) (by decide)
  exact ⟨h.1, h.2.1 rfl⟩

/-- C10: a TLS context is built exactly when both the cert file flag
and the key file flag are non-empty: with at most one of them set the
TLS stage yields no context and no error; a built context implies both
flags were set; with both set and a loadable key pair the context is
built with no root CA pool when the CA file flag is empty (the CA file
is optional), and with the CA file contents as root CA pool when the
CA file flag is set and readable. -/
theorem c10_tls_iff_cert_and_key (fl : Flags) (env : Env) :
    (fl.certFile = "" ∨ fl.keyFile = "" → buildTLS fl env = Except.ok none) ∧
    (∀ cfg, buildTLS fl env = Except.ok (some cfg) →
      fl.certFile ≠ "" ∧ fl.keyFile ≠ "") ∧
    (fl.certFile ≠ "" → fl.keyFile ≠ "" →
      env.keyPairOk fl.certFile fl.keyFile = true → fl.caCertFile = "" →
      buildTLS fl env = Except.ok (some
        { certFile := fl.certFile, keyFile := fl.keyFile,
          rootCAs := none })) ∧
    (∀ ca, fl.certFile ≠ "" → fl.keyFile ≠ "" →
      env.keyPairOk fl.certFile fl.keyFile = true → fl.caCertFile ≠ "" →
      env.readFile fl.caCertFile = some ca →
      buildTLS fl env = Except.ok (some
        { certFile := fl.certFile, keyFile := fl.keyFile,
          rootCAs := some ca })) := by
  refine ⟨?_, ?_, ?_, ?_⟩
  · intro h
    cases h with
    | inl h => simp [buildTLS, h]
    | inr h => simp [buildTLS, h]
  · intro cfg h
    by_cases hc : fl.certFile = ""
    · simp [buildTLS, hc] at h
    by_cases hk : fl.keyFile = ""
    · simp [buildTLS, hk] at h
    exact ⟨hc, hk⟩
  · intro hc hk hkp hca
    simp [buildTLS, loadCerts, hc, hk, hkp, hca]
  · intro ca hc hk hkp hca hread
    simp [buildTLS, loadCerts, hc, hk, hkp, hca, hread]

/-- Witness for C10: with only a key file set no TLS context and no
error results; with cert file c and key file k set, a loadable pair
and no CA file, a context with no root CA pool results. -/
theorem c10_tls_iff_cert_and_key_witness :
    buildTLS { sampleFlags with keyFile := "k" } sampleEnv = Except.ok none ∧
    buildTLS { sampleFlags with certFile := "c", keyFile := "k" } sampleEnv =
      Except.ok (some { certFile := "c", keyFile := "k", rootCAs := none }) := by
  constructor
  · exact (c10_tls_iff_cert_and_key _ _).1 (Or.inl rfl)
  · exact (c10_tls_iff_cert_and_key _ _).2.2.1 (by decide) (by decide) rfl rfl

end JenkinsOperator
